import Mathlib

/-!
Verification of the substrate block-ingestion pipeline
(`substrate_script.py` together with the Django schema `myapp/models.py`).

Shallow embedding conventions:
* A decoded Python object attribute or dict key that may be missing is an
  `Option`; `none` also stands for a Python-falsy value (`None`, `{}`),
  whose contents the script never reads.
* `d.get(k)` becomes direct `Option` access; `d[k]` (which raises
  `KeyError` when the key is absent) becomes `getKey`, in the `Except`
  monad.
* `datetime` instants (UTC) are represented by their count of
  milliseconds since the Unix epoch, as an `Int`: the script computes
  `datetime.fromtimestamp(v / 1000, tz=pytz.UTC)`, i.e. the instant
  `v` milliseconds after the epoch (`datetime` carries microsecond
  precision, so the millisecond value is exact at these magnitudes).
* The Django ORM is a small state machine over an explicit `DB` record;
  `objects.create` enforces the uniqueness / NOT NULL / foreign-key
  constraints declared in `myapp/models.py` and reports an
  `IntegrityError`-style failure. The relative order in which one INSERT's
  violated constraints are reported is a modelling choice (NOT NULL,
  then UNIQUE, then FK); every property proved below exercises at most
  one constraint per insert.
-/

/-- One entry of a call's `call_args` list: the dict `{name, value}`.
Both keys are read with subscript access in the source, so each is
modelled as possibly absent. Argument values that matter to the script
(`netuid`, the timestamp milliseconds) are integers. -/
structure CallArg where
  name : Option String
  value : Option Int
deriving Repr, DecidableEq

/-- The decoded `call` dict of an extrinsic. All four keys are read with
`.get` somewhere in the source, so all are optional. -/
structure CallDict where
  call_index : Option String
  call_function : Option String
  call_module : Option String
  call_args : Option (List CallArg)
deriving Repr, DecidableEq

/-- The `value` dict of a decoded extrinsic (keys read via `.get`). -/
structure ExtrinsicValue where
  call : Option CallDict
  extrinsic_hash : Option String
  address : Option String
  signature : Option String
  tip : Option Int
  nonce : Option Int
  era : Option String
deriving Repr, DecidableEq

/-- A decoded extrinsic object; `getattr(extrinsic, 'value', None)` plus
the script's truthiness test collapse to the `Option`. -/
structure PyExtrinsic where
  value : Option ExtrinsicValue
deriving Repr, DecidableEq

/-- The `value` dict of a decoded event. `extrinsic_idx` is read via
`.get`, `event_id` via subscript. -/
structure EventValue where
  extrinsic_idx : Option Nat
  event_id : Option String
deriving Repr, DecidableEq

/-- A decoded event object (`getattr(event, 'value', None)`). -/
structure PyEvent where
  value : Option EventValue
deriving Repr, DecidableEq

/-- Database-level failures surfaced by the ORM. -/
inductive DBErr where
  | uniqueConflict (table field : String)
  | notNull (table field : String)
  | fkViolation (table field : String)
deriving Repr, DecidableEq

/-- Python-level exceptions the script can raise. -/
inductive PyErr where
  | keyError (key : String)
  | indexError
  | dbErr (e : DBErr)
  | doesNotExist
deriving Repr, DecidableEq

deriving instance DecidableEq for Except

/-- Subscript access `d[k]`: raises `KeyError(k)` when the key is absent. -/
def getKey {α : Type} (o : Option α) (k : String) : Except PyErr α :=
  match o with
  | some v => .ok v
  | none => .error (.keyError k)

/-- The empty dict `{}` used as the default of `extrinsic_value.get('call', {})`. -/
def emptyCallDict : CallDict := ⟨none, none, none, none⟩

/-- `extract_block_timestamp` (substrate_script.py lines 42-58): scan the
extrinsics in order; for the first whose (truthy) value has a `call` dict
with `call_function == 'set'` and `call_module == 'Timestamp'`, return the
instant at `call_args[0]['value']` milliseconds since the epoch; `none`
when the loop finds no match. Subscripts follow the source's
short-circuit evaluation order. -/
def extract_block_timestamp : List PyExtrinsic → Except PyErr (Option Int)
  | [] => .ok none
  | e :: rest =>
    match e.value with
    | none => extract_block_timestamp rest
    | some v =>
      match v.call with
      | none => extract_block_timestamp rest
      | some c =>
        match getKey c.call_function "call_function" with
        | .error err => .error err
        | .ok cf =>
          if cf == "set" then
            match getKey c.call_module "call_module" with
            | .error err => .error err
            | .ok cm =>
              if cm == "Timestamp" then
                match getKey c.call_args "call_args" with
                | .error err => .error err
                | .ok [] => .error .indexError
                | .ok (a :: _) =>
                  match getKey a.value "value" with
                  | .error err => .error err
                  | .ok ms => .ok (some ms)
              else extract_block_timestamp rest
          else extract_block_timestamp rest

/-- `extract_extrinsic_events` (lines 130-150): collect, in order, the
values of the events whose `extrinsic_idx` equals `idx`, and report
whether any of them has `event_id == 'ExtrinsicSuccess'`. The
`event_value['event_id']` subscript raises on a matching event whose
`event_id` key is absent. -/
def extract_extrinsic_events (events : List PyEvent) (idx : Nat) :
    Except PyErr (List EventValue × Bool) :=
  match events with
  | [] => .ok ([], false)
  | e :: rest =>
    match e.value with
    | none => extract_extrinsic_events rest idx
    | some ev =>
      if ev.extrinsic_idx == some idx then
        match getKey ev.event_id "event_id" with
        | .error err => .error err
        | .ok eid =>
          match extract_extrinsic_events rest idx with
          | .error err => .error err
          | .ok (tl, s) => .ok (ev :: tl, (eid == "ExtrinsicSuccess") || s)
      else extract_extrinsic_events rest idx

/-- The generator scan inside `extract_extrinsic_details` (line 164):
`next((arg['value'] for arg in call_args if arg['name'] == 'netuid'), None)`.
Both subscripts raise when the key is absent. -/
def findNetuid : List CallArg → Except PyErr (Option Int)
  | [] => .ok none
  | a :: rest =>
    match getKey a.name "name" with
    | .error err => .error err
    | .ok n =>
      if n == "netuid" then
        match getKey a.value "value" with
        | .error err => .error err
        | .ok v => .ok (some v)
      else findNetuid rest

/-- `extract_extrinsic_details` (lines 152-166): descriptor triple
`[call_index, call_function, call_module]` (each via `.get`, so absent
keys degrade to `none`) and the `netuid` tag. -/
def extract_extrinsic_details (extrinsic_value : ExtrinsicValue) :
    Except PyErr ((Option String × Option String × Option String) × Option Int) :=
  let call := extrinsic_value.call.getD emptyCallDict
  let call_args := call.call_args.getD []
  match findNetuid call_args with
  | .error err => .error err
  | .ok netuid => .ok ((call.call_index, call.call_function, call.call_module), netuid)

/-! ## Database model (`myapp/models.py`) -/

/-- A row of the `Block` table. `block_id` and `block_hash` are declared
`unique`; `timestamp` is nullable. -/
structure BlockRow where
  block_id : Nat
  block_hash : String
  parentHash : String
  stateRoot : String
  extrinsicsRoot : String
  timestamp : Option Int
deriving Repr, DecidableEq

/-- A row of the `Call` table. `call_index` is declared `unique`;
function and module names are nullable. -/
structure CallRow where
  call_index : String
  call_function : Option String
  call_module : Option String
deriving Repr, DecidableEq

/-- A row of the `Extrinsic` table. `hash` is `unique` and NOT NULL;
`call_index` is a foreign key to `Call.call_index` declared without
`null=True` (models.py line 30), hence NOT NULL at the database; the
stored value, once inserted, is always `some`. `block` is a foreign key
to `Block.block_id`. -/
structure ExtrinsicRow where
  hash : String
  netuid : Option Int
  address : Option String
  block : Nat
  idx : String
  signature : Option String
  tip : Option Int
  nonce : Option Int
  era : Option String
  call_index : Option String
  call_args : Option (List CallArg)
  result : String
  events : List EventValue
deriving Repr, DecidableEq

/-- The state of the three tables. Rows are appended in insertion order. -/
structure DB where
  blocks : List BlockRow
  calls : List CallRow
  extrinsics : List ExtrinsicRow
deriving Repr, DecidableEq

/-- `Block.objects.create`: rejected on a duplicate `block_id` or
`block_hash` (unique constraints), otherwise appended. -/
def Block_create (db : DB) (r : BlockRow) : Except PyErr DB :=
  if db.blocks.any (fun b => b.block_id = r.block_id) then
    .error (.dbErr (.uniqueConflict "Block" "block_id"))
  else if db.blocks.any (fun b => b.block_hash = r.block_hash) then
    .error (.dbErr (.uniqueConflict "Block" "block_hash"))
  else .ok { db with blocks := db.blocks ++ [r] }

/-- `Call.objects.create`: rejected on a duplicate `call_index`. -/
def Call_create (db : DB) (r : CallRow) : Except PyErr DB :=
  if db.calls.any (fun c => c.call_index = r.call_index) then
    .error (.dbErr (.uniqueConflict "Call" "call_index"))
  else .ok { db with calls := db.calls ++ [r] }

/-- `Call.objects.get(call_index=ci)`: the row with that identifier,
`DoesNotExist` otherwise. -/
def Call_get (db : DB) (ci : String) : Except PyErr CallRow :=
  match db.calls.find? (fun c => c.call_index = ci) with
  | some c => .ok c
  | none => .error .doesNotExist

/-- `Extrinsic.objects.create` (lines 114-128). The INSERT violates its
constraints when: `hash` is `None` (NOT NULL) or duplicates an existing
row (unique); `call_index` is `None` (the foreign key is non-nullable,
models.py line 30) or references no `Call` row; `block` references no
`Block` row. -/
def Extrinsic_create (db : DB) (hash : Option String) (netuid : Option Int)
    (address : Option String) (block : Nat) (idx : String) (signature : Option String)
    (tip : Option Int) (nonce : Option Int) (era : Option String)
    (call_index : Option String) (call_args : Option (List CallArg))
    (result : String) (events : List EventValue) : Except PyErr DB :=
  match hash with
  | none => .error (.dbErr (.notNull "Extrinsic" "hash"))
  | some h =>
    match call_index with
    | none => .error (.dbErr (.notNull "Extrinsic" "call_index"))
    | some ci =>
      if db.extrinsics.any (fun e => e.hash = h) then
        .error (.dbErr (.uniqueConflict "Extrinsic" "hash"))
      else if ¬ db.calls.any (fun c => c.call_index = ci) then
        .error (.dbErr (.fkViolation "Extrinsic" "call_index"))
      else if ¬ db.blocks.any (fun b => b.block_id = block) then
        .error (.dbErr (.fkViolation "Extrinsic" "block"))
      else .ok { db with extrinsics := db.extrinsics ++
        [⟨h, netuid, address, block, idx, signature, tip, nonce, era,
          some ci, call_args, result, events⟩] }

/-! ## Orchestration (`process_extrinsics`, `create_block_record`, `main`) -/

/-- `f"{idx:04}"`: decimal, zero-filled to a minimum width of 4. -/
def pad4 (n : Nat) : String :=
  let s := toString n
  if s.length < 4 then String.mk (List.replicate (4 - s.length) '0') ++ s else s

/-- The position identifier `f"{block_number}-{idx:04}"` (line 119). -/
def fmtIdx (block_number idx : Nat) : String :=
  toString block_number ++ "-" ++ pad4 idx

/-- Lines 102-112 of `process_extrinsics`: the Call-registry fragment.
When the descriptor's identifier is truthy (present and non-empty): if no
`Call` row carries it, create one from the descriptor; then fetch the row
and use it as the reference. Otherwise no row is touched and the
reference is `None`. Returns the updated table state and the reference. -/
def resolveCall (db : DB) (extrinsic_type : Option String × Option String × Option String) :
    Except PyErr (DB × Option String) :=
  match extrinsic_type.1 with
  | none => .ok (db, none)
  | some ci =>
    if ci = "" then .ok (db, none)
    else
      match (if ¬ db.calls.any (fun c => c.call_index = ci) then
          Call_create db ⟨ci, extrinsic_type.2.1, extrinsic_type.2.2⟩
        else .ok db) with
      | .error err => .error err
      | .ok db1 =>
        match Call_get db1 ci with
        | .error err => .error err
        | .ok inst => .ok (db1, some inst.call_index)

/-- The loop body and recursion of `process_extrinsics` (lines 93-128),
with the running `enumerate` index made explicit. A raised exception
aborts the remaining extrinsics but keeps every row already committed
(the script runs in autocommit: a `Call` row created just before a
failing `Extrinsic` INSERT stays). -/
def processAux (extrinsics : List PyExtrinsic) (events : List PyEvent)
    (block_instance block_number idx : Nat) (db : DB) : DB × Except PyErr Unit :=
  match extrinsics with
  | [] => (db, .ok ())
  | e :: rest =>
    match e.value with
    | none => processAux rest events block_instance block_number (idx + 1) db
    | some v =>
      match extract_extrinsic_events events idx with
      | .error err => (db, .error err)
      | .ok (extrinsic_events, extrinsic_success) =>
        let extrinsic_result := if extrinsic_success then "success" else "failed"
        match extract_extrinsic_details v with
        | .error err => (db, .error err)
        | .ok (extrinsic_type, extrinsic_netuid) =>
          match resolveCall db extrinsic_type with
          | .error err => (db, .error err)
          | .ok (db1, call_index_instance) =>
            match Extrinsic_create db1 v.extrinsic_hash extrinsic_netuid v.address
                block_instance (fmtIdx block_number idx) v.signature v.tip v.nonce v.era
                call_index_instance (v.call.getD emptyCallDict).call_args
                extrinsic_result extrinsic_events with
            | .error err => (db1, .error err)
            | .ok db2 => processAux rest events block_instance block_number (idx + 1) db2

/-- `process_extrinsics` (lines 82-128). The Block instance reference is
its `block_id` value. -/
def process_extrinsics (extrinsics : List PyExtrinsic) (events : List PyEvent)
    (block_instance block_number : Nat) (db : DB) : DB × Except PyErr Unit :=
  processAux extrinsics events block_instance block_number 0 db

/-- The `header` part of the fetched block dict. -/
structure BlockHeader where
  parentHash : String
  stateRoot : String
  extrinsicsRoot : String
deriving Repr, DecidableEq

/-- The fetched block dict: header fields plus the decoded extrinsics. -/
structure BlockData where
  header : BlockHeader
  extrinsics : List PyExtrinsic
deriving Repr, DecidableEq

/-- `create_block_record` (lines 60-80). -/
def create_block_record (block_number : Nat) (block : BlockData) (block_hash : String)
    (block_timestamp : Option Int) (db : DB) : Except PyErr DB :=
  Block_create db ⟨block_number, block_hash, block.header.parentHash,
    block.header.stateRoot, block.header.extrinsicsRoot, block_timestamp⟩

/-- The post-fetch pipeline of `main` (lines 177-180): timestamp
extraction, then `create_block_record`, then `process_extrinsics`. Any
exception propagates, keeping the rows committed before it. -/
def process_block (block_number : Nat) (block : BlockData) (events : List PyEvent)
    (block_hash : String) (db : DB) : DB × Except PyErr Unit :=
  match extract_block_timestamp block.extrinsics with
  | .error err => (db, .error err)
  | .ok block_timestamp =>
    match create_block_record block_number block block_hash block_timestamp db with
    | .error err => (db, .error err)
    | .ok block_instance_db =>
      processAux block.extrinsics events block_number block_number 0 block_instance_db

/-! ## Specification-side definitions (for refinement statements) -/

/-- Written from the claim's words: an extrinsic "whose call module
equals \"Timestamp\" and call function equals \"set\"". -/
def isTimestampSet (e : PyExtrinsic) : Bool :=
  match e.value with
  | none => false
  | some v =>
    match v.call with
    | none => false
    | some c => c.call_module == some "Timestamp" && c.call_function == some "set"

/-- Written from the claim's words: the first positional argument of the
first Timestamp/set extrinsic, read as milliseconds since the Unix epoch
(our representation of a UTC instant); absent when no such extrinsic
exists. -/
def specBlockTimestamp (xs : List PyExtrinsic) : Option Int :=
  match xs.find? isTimestampSet with
  | none => none
  | some e =>
    e.value.bind fun v => v.call.bind fun c =>
      c.call_args.bind fun args => args.head?.bind fun a => a.value

/-- The UTC instant at a given epoch second, in our millisecond
representation. -/
def utcMsOfEpochSecond (s : Int) : Int := 1000 * s

/-- Written from the claim's words: the (first) value of an argument
named "netuid", absent when no argument carries that name. -/
def specNetuid (args : List CallArg) : Option Int :=
  (args.find? (fun a => a.name == some "netuid")).bind CallArg.value

/-- A call dict carries the keys the timestamp scan subscripts:
`call_function` always; `call_module` once the function is "set"; a
non-empty `call_args` whose head has a `value` once both match. -/
def tsShapeOk (c : CallDict) : Bool :=
  c.call_function.isSome &&
  (!(c.call_function == some "set") || c.call_module.isSome) &&
  (!((c.call_function == some "set") && (c.call_module == some "Timestamp")) ||
    (match c.call_args with
     | some (a :: _) => a.value.isSome
     | _ => false))

/-- An extrinsic is harmless to the timestamp scan: either skipped (no
value or no call) or its call dict is well-shaped. -/
def extShapeOk (e : PyExtrinsic) : Bool :=
  match e.value with
  | none => true
  | some v =>
    match v.call with
    | none => true
    | some c => tsShapeOk c

/-- Shape assumption under which the timestamp scan raises nothing; this
is the shape the ChainClient interface guarantees for decoded
extrinsics. -/
def TsWellShaped (xs : List PyExtrinsic) : Prop :=
  ∀ e ∈ xs, extShapeOk e = true

instance (xs : List PyExtrinsic) : Decidable (TsWellShaped xs) := by
  unfold TsWellShaped
  infer_instance

/-! ## Concrete sample data (used by the evaluation witnesses) -/

/-- A database holding one Block row (block 5) and nothing else. -/
def sampleDB : DB :=
  ⟨[⟨5, "0xblockhash5", "0xparent", "0xstate", "0xextr", none⟩], [], []⟩

/-- A stake-like call dict whose argument list is the claims' example. -/
def sampleCD1 : CallDict :=
  ⟨some "0x0701", some "add_stake", some "SubtensorModule",
    some [⟨some "amount", some 5⟩, ⟨some "netuid", some 12⟩]⟩

/-- A well-formed decoded extrinsic value built on `sampleCD1`. -/
def sampleVal1 : ExtrinsicValue :=
  ⟨some sampleCD1, some "0xhash1", some "5Faddr", some "0xsig", some 0, some 3, some "00"⟩

/-- A well-formed extrinsic: transfer-like call with a `netuid` argument. -/
def sampleExt1 : PyExtrinsic := ⟨some sampleVal1⟩

/-- A second call dict sharing `sampleCD1`'s identifier. -/
def sampleCD2 : CallDict :=
  ⟨some "0x0701", some "add_stake", some "SubtensorModule", some [⟨some "amount", some 7⟩]⟩

/-- A second well-formed decoded extrinsic value built on `sampleCD2`. -/
def sampleVal2 : ExtrinsicValue :=
  ⟨some sampleCD2, some "0xhash2", some "5Gaddr", some "0xsig2", some 0, some 4, some "00"⟩

/-- A second well-formed extrinsic sharing `sampleExt1`'s call identifier. -/
def sampleExt2 : PyExtrinsic := ⟨some sampleVal2⟩

/-- An extrinsic whose decoded `value` attribute is absent/falsy. -/
def sampleExtNone : PyExtrinsic := ⟨none⟩

/-- A decoded extrinsic value with no `call` key at all. -/
def sampleValNoCall : ExtrinsicValue :=
  ⟨none, some "0xhash9", some "5Haddr", none, none, none, none⟩

/-- An extrinsic with a decoded value but no `call` key at all. -/
def sampleExtNoCall : PyExtrinsic := ⟨some sampleValNoCall⟩

/-- An extrinsic whose call has an argument dict lacking the `name` key. -/
def sampleExtBadArg : PyExtrinsic :=
  ⟨some ⟨some ⟨some "0x0902", some "serve_axon", some "SubtensorModule",
    some [⟨none, some 5⟩]⟩,
    some "0xhashb", some "5Jaddr", none, none, none, none⟩⟩

/-- The `Timestamp.set` extrinsic of the claims' example. -/
def sampleTsExt : PyExtrinsic :=
  ⟨some ⟨some ⟨some "0x0200", some "set", some "Timestamp",
    some [⟨some "now", some 1700000000000⟩]⟩,
    some "0xhashts", none, none, none, none, none⟩⟩

/-- An `ExtrinsicSuccess` event at position 0. -/
def sampleEvSuccess : PyEvent := ⟨some ⟨some 0, some "ExtrinsicSuccess"⟩⟩

/-- An `ExtrinsicFailed` event at position 1. -/
def sampleEvFailed : PyEvent := ⟨some ⟨some 1, some "ExtrinsicFailed"⟩⟩

/-- A transfer event at position 0. -/
def sampleEvOther : PyEvent := ⟨some ⟨some 0, some "Transfer"⟩⟩

/-- The row `process_extrinsics [sampleExt1] [sampleEvSuccess] 5 5`
persists into `sampleDB`. -/
def sampleRow1 : ExtrinsicRow :=
  ⟨"0xhash1", some 12, some "5Faddr", 5, "5-0000", some "0xsig", some 0, some 3,
    some "00", some "0x0701",
    some [⟨some "amount", some 5⟩, ⟨some "netuid", some 12⟩], "success",
    [⟨some 0, some "ExtrinsicSuccess"⟩]⟩

example : extract_block_timestamp [] = .ok none := by decide

example :
    process_extrinsics [sampleExt1] [sampleEvSuccess] 5 5 sampleDB =
      (⟨sampleDB.blocks,
        [⟨"0x0701", some "add_stake", some "SubtensorModule"⟩],
        [⟨"0xhash1", some 12, some "5Faddr", 5, "5-0000", some "0xsig", some 0, some 3,
          some "00", some "0x0701",
          some [⟨some "amount", some 5⟩, ⟨some "netuid", some 12⟩], "success",
          [⟨some 0, some "ExtrinsicSuccess"⟩]⟩]⟩, .ok ()) := by decide

example :
    process_extrinsics [sampleExtNoCall] [] 5 5 sampleDB =
      (sampleDB, .error (.dbErr (.notNull "Extrinsic" "call_index"))) := by decide

example :
    process_extrinsics [sampleExtBadArg] [] 5 5 sampleDB =
      (sampleDB, .error (.keyError "name")) := by decide

example :
    process_extrinsics [sampleExtNone] [] 5 5 sampleDB = (sampleDB, .ok ()) := by decide

example :
    process_block 5 ⟨⟨"0xp", "0xs", "0xe"⟩, []⟩ [] "0xother" sampleDB =
      (sampleDB, .error (.dbErr (.uniqueConflict "Block" "block_id"))) := by decide

/-! ## Lemmas about the analyzers -/

/-- When the event scan returns, the returned list is exactly the values
of the events whose `extrinsic_idx` equals the requested position, in
arrival order, and the success flag is the disjunction of the
`ExtrinsicSuccess` test over that list. -/
theorem extract_events_ok (events : List PyEvent) (idx : Nat) (l : List EventValue) (s : Bool)
    (h : extract_extrinsic_events events idx = .ok (l, s)) :
    l = (events.filterMap PyEvent.value).filter (fun v => v.extrinsic_idx == some idx) ∧
    s = l.any (fun v => v.event_id == some "ExtrinsicSuccess") := by
  induction events generalizing l s with
  | nil =>
    rw [extract_extrinsic_events] at h
    simp only [Except.ok.injEq, Prod.mk.injEq] at h
    simp [← h.1, ← h.2]
  | cons e rest ih =>
    rw [extract_extrinsic_events] at h
    cases hv : e.value with
    | none =>
      rw [hv] at h
      obtain ⟨h1, h2⟩ := ih l s h
      simp [List.filterMap_cons, hv, ← h1, ← h2]
    | some ev =>
      simp only [hv] at h
      cases hidx : (ev.extrinsic_idx == some idx) with
      | false =>
        rw [hidx] at h
        simp only [Bool.false_eq_true, if_false] at h
        obtain ⟨h1, h2⟩ := ih l s h
        simp [List.filterMap_cons, hv, hidx, ← h1, ← h2]
      | true =>
        rw [hidx] at h
        simp only [if_true] at h
        cases heid : ev.event_id with
        | none => rw [heid] at h; simp [getKey] at h
        | some eid =>
          rw [heid] at h
          simp only [getKey] at h
          cases hrec : extract_extrinsic_events rest idx with
          | error err => rw [hrec] at h; simp at h
          | ok p =>
            obtain ⟨tl, s'⟩ := p
            rw [hrec] at h
            simp only [Except.ok.injEq, Prod.mk.injEq] at h
            obtain ⟨h1, h2⟩ := ih tl s' hrec
            constructor
            · simp [List.filterMap_cons, hv, hidx, ← h.1, h1]
            · simp [← h.1, ← h.2, heid, h2]

/-- The Call-registry fragment touches only the `Call` table. -/
theorem resolveCall_ok_state (db : DB) (t : Option String × Option String × Option String)
    (db' : DB) (ref : Option String) (h : resolveCall db t = .ok (db', ref)) :
    db'.extrinsics = db.extrinsics ∧ db'.blocks = db.blocks := by
  unfold resolveCall at h
  split at h
  · simp only [Except.ok.injEq, Prod.mk.injEq] at h
    exact ⟨by rw [← h.1], by rw [← h.1]⟩
  · split at h
    · simp only [Except.ok.injEq, Prod.mk.injEq] at h
      exact ⟨by rw [← h.1], by rw [← h.1]⟩
    · split at h
      · exact absurd h (by simp)
      next db1 heq =>
        have hdb1 : db1.extrinsics = db.extrinsics ∧ db1.blocks = db.blocks := by
          split at heq
          · unfold Call_create at heq
            split at heq
            · exact absurd heq (by simp)
            · rw [← Except.ok.inj heq]
              exact ⟨rfl, rfl⟩
          · rw [← Except.ok.inj heq]
            exact ⟨rfl, rfl⟩
        split at h
        · exact absurd h (by simp)
        · simp only [Except.ok.injEq, Prod.mk.injEq] at h
          exact ⟨by rw [← h.1]; exact hdb1.1, by rw [← h.1]; exact hdb1.2⟩

/-- Shape of a successful `Extrinsic` INSERT: the non-null fields were
present and exactly one row, built from the call's arguments, was
appended. -/
theorem Extrinsic_create_ok (db : DB) (hash : Option String) (netuid : Option Int)
    (address : Option String) (block : Nat) (idx : String) (signature : Option String)
    (tip : Option Int) (nonce : Option Int) (era : Option String)
    (call_index : Option String) (call_args : Option (List CallArg))
    (result : String) (events : List EventValue) (db' : DB)
    (h : Extrinsic_create db hash netuid address block idx signature tip nonce era
      call_index call_args result events = .ok db') :
    ∃ h0 ci0, hash = some h0 ∧ call_index = some ci0 ∧
      db' = { db with extrinsics := db.extrinsics ++
        [⟨h0, netuid, address, block, idx, signature, tip, nonce, era,
          some ci0, call_args, result, events⟩] } := by
  unfold Extrinsic_create at h
  split at h
  · exact absurd h (by simp)
  · split at h
    · exact absurd h (by simp)
    · split at h
      · exact absurd h (by simp)
      · split at h
        · exact absurd h (by simp)
        · split at h
          · exact absurd h (by simp)
          · exact ⟨_, _, rfl, rfl, (Except.ok.inj h).symm⟩

/-- Every row the processing loop adds carries a `result` of `"success"`
exactly when its stored event list holds an `ExtrinsicSuccess` event,
and `"failed"` exactly otherwise. -/
theorem processAux_new_rows (xs : List PyExtrinsic) (events : List PyEvent)
    (bi B i : Nat) (db : DB) :
    ∀ r ∈ (processAux xs events bi B i db).1.extrinsics,
      r ∈ db.extrinsics ∨
      ((r.result = "success" ∧ ∃ ev ∈ r.events, ev.event_id = some "ExtrinsicSuccess") ∨
       (r.result = "failed" ∧ ¬ ∃ ev ∈ r.events, ev.event_id = some "ExtrinsicSuccess")) := by
  induction xs generalizing i db with
  | nil =>
    intro r hr
    rw [processAux] at hr
    exact Or.inl hr
  | cons e rest ih =>
    intro r hr
    rw [processAux] at hr
    cases hv : e.value with
    | none =>
      simp only [hv] at hr
      exact ih (i + 1) db r hr
    | some v =>
      simp only [hv] at hr
      cases hee : extract_extrinsic_events events i with
      | error err => simp only [hee] at hr; exact Or.inl hr
      | ok p =>
        obtain ⟨l, s⟩ := p
        simp only [hee] at hr
        cases hdet : extract_extrinsic_details v with
        | error err => simp only [hdet] at hr; exact Or.inl hr
        | ok q =>
          obtain ⟨t, nu⟩ := q
          simp only [hdet] at hr
          cases hrc : resolveCall db t with
          | error err => simp only [hrc] at hr; exact Or.inl hr
          | ok p2 =>
            obtain ⟨db1, ref⟩ := p2
            simp only [hrc] at hr
            cases hec : Extrinsic_create db1 v.extrinsic_hash nu v.address bi (fmtIdx B i)
                v.signature v.tip v.nonce v.era ref (v.call.getD emptyCallDict).call_args
                (if s then "success" else "failed") l with
            | error err =>
              simp only [hec] at hr
              rw [(resolveCall_ok_state db t db1 ref hrc).1] at hr
              exact Or.inl hr
            | ok db2 =>
              simp only [hec] at hr
              obtain ⟨h0, ci0, hh, hci, hdb2⟩ :=
                Extrinsic_create_ok db1 _ _ _ _ _ _ _ _ _ _ _ _ _ _ hec
              rcases ih (i + 1) db2 r hr with hin | hp
              · rw [hdb2] at hin
                simp only [List.mem_append, List.mem_singleton] at hin
                rcases hin with hin1 | hin2
                · rw [(resolveCall_ok_state db t db1 ref hrc).1] at hin1
                  exact Or.inl hin1
                · subst hin2
                  obtain ⟨-, hs⟩ := extract_events_ok events i l s hee
                  right
                  cases s with
                  | true =>
                    left
                    refine ⟨by simp, ?_⟩
                    have hany : l.any (fun v => v.event_id == some "ExtrinsicSuccess") = true :=
                      hs.symm
                    simpa [List.any_eq_true] using hany
                  | false =>
                    right
                    refine ⟨by simp, ?_⟩
                    have hany : l.any (fun v => v.event_id == some "ExtrinsicSuccess") = false :=
                      hs.symm
                    simpa [List.any_eq_true] using hany
              · exact Or.inr hp

/-- The generator scan refines `specNetuid` whenever every argument dict
carries a `name` key (and a `value` key on the matching one). -/
theorem findNetuid_ok (args : List CallArg)
    (hwf : ∀ a ∈ args, a.name.isSome ∧ (a.name = some "netuid" → a.value.isSome)) :
    findNetuid args = .ok (specNetuid args) := by
  induction args with
  | nil => simp [findNetuid, specNetuid]
  | cons a rest ih =>
    obtain ⟨hn, hv⟩ := hwf a (List.mem_cons_self a rest)
    obtain ⟨n, hn'⟩ := Option.isSome_iff_exists.mp hn
    rw [findNetuid]
    simp only [hn', getKey]
    cases hne : (n == "netuid") with
    | true =>
      have hnn : n = "netuid" := by simpa using hne
      obtain ⟨v, hv'⟩ := Option.isSome_iff_exists.mp (hv (by rw [hn', hnn]))
      simp [specNetuid, List.find?_cons, hn', hnn, hv', getKey]
    | false =>
      have hnn : n ≠ "netuid" := by simpa using hne
      simp only [hne, Bool.false_eq_true, if_false]
      rw [ih (fun a' ha' => hwf a' (List.mem_cons_of_mem _ ha'))]
      simp [specNetuid, List.find?_cons, hn', hnn]

/-- `extract_extrinsic_details` never raises on well-named arguments: it
returns the call's descriptor fields as stored (absent keys staying
absent) and the `specNetuid` tag. -/
theorem extract_details_ok (v : ExtrinsicValue)
    (hwf : ∀ a ∈ ((v.call.getD emptyCallDict).call_args.getD []),
      a.name.isSome ∧ (a.name = some "netuid" → a.value.isSome)) :
    extract_extrinsic_details v =
      .ok (((v.call.getD emptyCallDict).call_index, (v.call.getD emptyCallDict).call_function,
        (v.call.getD emptyCallDict).call_module),
        specNetuid ((v.call.getD emptyCallDict).call_args.getD [])) := by
  simp only [extract_extrinsic_details]
  rw [findNetuid_ok _ hwf]

/-! ## Claim theorems -/

/-- C1: For every extrinsic processed, the persisted `result` field
equals "success" if and only if the list of events correlated to that
extrinsic's position (stored in the row's `events` field) contains an
event whose identifier equals "ExtrinsicSuccess"; otherwise it equals
"failed". -/
theorem result_success_iff_extrinsicSuccess (xs : List PyExtrinsic) (events : List PyEvent)
    (bi B : Nat) (db : DB) (r : ExtrinsicRow)
    (hr : r ∈ (process_extrinsics xs events bi B db).1.extrinsics)
    (hnew : r ∉ db.extrinsics) :
    (r.result = "success" ↔ ∃ ev ∈ r.events, ev.event_id = some "ExtrinsicSuccess") ∧
    (¬ (∃ ev ∈ r.events, ev.event_id = some "ExtrinsicSuccess") → r.result = "failed") := by
  rcases processAux_new_rows xs events bi B 0 db r hr with hin | hp
  · exact absurd hin hnew
  · rcases hp with ⟨hres, hex⟩ | ⟨hres, hex⟩
    · exact ⟨⟨fun _ => hex, fun _ => hres⟩, fun hn => absurd hex hn⟩
    · refine ⟨⟨fun hs => ?_, fun hx => absurd hx hex⟩, fun _ => hres⟩
      rw [hres] at hs
      exact absurd hs (by decide)

/-- Witness for C1 at a concrete run: one extrinsic whose position-0
events contain `ExtrinsicSuccess`. -/
theorem result_success_iff_extrinsicSuccess_witness :
    (sampleRow1.result = "success" ↔
      ∃ ev ∈ sampleRow1.events, ev.event_id = some "ExtrinsicSuccess") ∧
    (¬ (∃ ev ∈ sampleRow1.events, ev.event_id = some "ExtrinsicSuccess") →
      sampleRow1.result = "failed") :=
  result_success_iff_extrinsicSuccess [sampleExt1] [sampleEvSuccess] 5 5 sampleDB sampleRow1
    (by decide) (by decide)

/-- C6: For every event list and extrinsic position `i`, event
correlation returns exactly the values of those events whose embedded
extrinsic-position field equals `i`, in the relative order in which they
appear in the block's event list. -/
theorem event_correlation_exact (events : List PyEvent) (i : Nat)
    (l : List EventValue) (s : Bool)
    (h : extract_extrinsic_events events i = .ok (l, s)) :
    l = (events.filterMap PyEvent.value).filter (fun v => v.extrinsic_idx == some i) :=
  (extract_events_ok events i l s h).1

/-- Witness for C6: three events, two at position 0, one at position 1;
correlation at 0 returns the two position-0 values in order. -/
theorem event_correlation_exact_witness :
    [(⟨some 0, some "ExtrinsicSuccess"⟩ : EventValue), ⟨some 0, some "Transfer"⟩] =
      (([sampleEvSuccess, sampleEvFailed, sampleEvOther].filterMap PyEvent.value).filter
        (fun v => v.extrinsic_idx == some 0)) :=
  event_correlation_exact [sampleEvSuccess, sampleEvFailed, sampleEvOther] 0
    [⟨some 0, some "ExtrinsicSuccess"⟩, ⟨some 0, some "Transfer"⟩] true (by decide)

/-- C7: For every extrinsic's call (arguments carrying their keys), tag
extraction returns the value of an argument named "netuid" when one is
present, and absent when no argument is named "netuid" — the
`specNetuid` scan written from the claim. -/
theorem netuid_tag_extraction (v : ExtrinsicValue)
    (hwf : ∀ a ∈ ((v.call.getD emptyCallDict).call_args.getD []),
      a.name.isSome ∧ (a.name = some "netuid" → a.value.isSome)) :
    (extract_extrinsic_details v).map Prod.snd =
      .ok (specNetuid ((v.call.getD emptyCallDict).call_args.getD [])) ∧
    ((∀ a ∈ ((v.call.getD emptyCallDict).call_args.getD []), ¬ a.name = some "netuid") →
      (extract_extrinsic_details v).map Prod.snd = .ok none) := by
  have h := extract_details_ok v hwf
  constructor
  · rw [h]; rfl
  · intro hnone
    rw [h]
    have : ((v.call.getD emptyCallDict).call_args.getD []).find?
        (fun a => a.name == some "netuid") = none := by
      rw [List.find?_eq_none]
      intro a ha
      simpa using hnone a ha
    simp [specNetuid, this, Except.map]

/-- Witness for C7 at the claim's example arguments
`[{name:"amount",value:5},{name:"netuid",value:12}]`: the extracted tag
is 12. -/
theorem netuid_tag_extraction_witness :
    ((extract_extrinsic_details sampleVal1).map Prod.snd =
      .ok (specNetuid ((sampleVal1.call.getD emptyCallDict).call_args.getD [])) ∧
    ((∀ a ∈ ((sampleVal1.call.getD emptyCallDict).call_args.getD []),
        ¬ a.name = some "netuid") →
      (extract_extrinsic_details sampleVal1).map Prod.snd = .ok none)) ∧
    specNetuid ((sampleVal1.call.getD emptyCallDict).call_args.getD []) = some 12 :=
  ⟨netuid_tag_extraction sampleVal1 (by decide), by decide⟩

/-- The timestamp scan refines the spec-side first-Timestamp-set scan on
well-shaped extrinsic sequences. -/
theorem extract_block_timestamp_refines (xs : List PyExtrinsic) (hws : TsWellShaped xs) :
    extract_block_timestamp xs = .ok (specBlockTimestamp xs) := by
  induction xs with
  | nil => simp [extract_block_timestamp, specBlockTimestamp]
  | cons e rest ih =>
    have hrest : TsWellShaped rest := fun e' he' => hws e' (List.mem_cons_of_mem _ he')
    have hhead := hws e (List.mem_cons_self e rest)
    rw [extract_block_timestamp]
    cases hv : e.value with
    | none =>
      simp only [hv]
      rw [ih hrest]
      have hts : isTimestampSet e = false := by simp [isTimestampSet, hv]
      simp [specBlockTimestamp, List.find?_cons, hts]
    | some v =>
      simp only [hv]
      cases hc : v.call with
      | none =>
        simp only [hc]
        rw [ih hrest]
        have hts : isTimestampSet e = false := by simp [isTimestampSet, hv, hc]
        simp [specBlockTimestamp, List.find?_cons, hts]
      | some c =>
        simp only [extShapeOk, hv, hc] at hhead
        simp only [tsShapeOk, Bool.and_eq_true] at hhead
        obtain ⟨⟨hf, hm⟩, ha⟩ := hhead
        obtain ⟨cf, hcf⟩ := Option.isSome_iff_exists.mp hf
        simp only [hc, hcf, getKey]
        cases hcfset : (cf == "set") with
        | false =>
          simp only [hcfset, Bool.false_eq_true, if_false]
          rw [ih hrest]
          have hts : isTimestampSet e = false := by
            simp [isTimestampSet, hv, hc, hcf, hcfset]
          simp [specBlockTimestamp, List.find?_cons, hts]
        | true =>
          have hcf' : cf = "set" := by simpa using hcfset
          simp only [hcfset, if_true]
          have hmod : c.call_module.isSome = true := by
            rw [hcf, hcf'] at hm
            simpa using hm
          obtain ⟨cm, hcm⟩ := Option.isSome_iff_exists.mp hmod
          simp only [hcm, getKey]
          cases hcmts : (cm == "Timestamp") with
          | false =>
            simp only [hcmts, Bool.false_eq_true, if_false]
            rw [ih hrest]
            have hts : isTimestampSet e = false := by
              simp [isTimestampSet, hv, hc, hcm, hcmts]
            simp [specBlockTimestamp, List.find?_cons, hts]
          | true =>
            have hcm' : cm = "Timestamp" := by simpa using hcmts
            simp only [hcmts, if_true]
            rw [hcf, hcf', hcm, hcm'] at ha
            simp only [beq_self_eq_true, Bool.and_self, Bool.not_true,
              Bool.false_or] at ha
            cases hargs : c.call_args with
            | none => rw [hargs] at ha; simp at ha
            | some args =>
              cases args with
              | nil => rw [hargs] at ha; simp at ha
              | cons a tl =>
                rw [hargs] at ha
                simp only at ha
                obtain ⟨t, hav⟩ := Option.isSome_iff_exists.mp ha
                simp only [hargs, getKey, hav]
                have hts : isTimestampSet e = true := by
                  simp [isTimestampSet, hv, hc, hcf, hcf', hcm, hcm']
                simp [specBlockTimestamp, List.find?_cons, hts, hv, hc, hargs, hav]

/-- C2: For every (well-shaped) ordered extrinsic sequence, timestamp
extraction returns the UTC instant (milliseconds since the Unix epoch)
given by the first positional argument of the first extrinsic whose call
module equals "Timestamp" and call function equals "set" — the
`specBlockTimestamp` scan written from the claim — and returns absent
when no such extrinsic exists. -/
theorem block_timestamp_first_timestamp_set (xs : List PyExtrinsic) (hws : TsWellShaped xs) :
    extract_block_timestamp xs = .ok (specBlockTimestamp xs) ∧
    ((∀ e ∈ xs, isTimestampSet e = false) → extract_block_timestamp xs = .ok none) := by
  have main := extract_block_timestamp_refines xs hws
  refine ⟨main, fun hnone => ?_⟩
  rw [main]
  have : xs.find? isTimestampSet = none := List.find?_eq_none.mpr (by simpa using hnone)
  simp [specBlockTimestamp, this]

/-- Witness for C2 at the claims' example: a Timestamp/set extrinsic
with first argument 1700000000000 yields the UTC instant at epoch second
1700000000; a sequence with no Timestamp/set extrinsic yields absent. -/
theorem block_timestamp_first_timestamp_set_witness :
    extract_block_timestamp [sampleExt1, sampleTsExt] =
      .ok (some (utcMsOfEpochSecond 1700000000)) ∧
    extract_block_timestamp [sampleExt1] = .ok none := by
  constructor
  · rw [(block_timestamp_first_timestamp_set [sampleExt1, sampleTsExt] (by decide)).1]
    decide
  · exact (block_timestamp_first_timestamp_set [sampleExt1] (by decide)).2 (by decide)

/-- C8 counterexample: an extrinsic whose call carries an argument dict
lacking its `name` key is an "unexpected/missing shape", yet the decode
anomaly is NOT absorbed: `arg['name']` raises `KeyError`, the extrinsic
is not persisted, and the block's ingestion aborts. -/
theorem decode_anomaly_aborts_counterexample :
    (process_extrinsics [sampleExtBadArg] [] 5 5 sampleDB).2 = .error (.keyError "name") ∧
    (process_extrinsics [sampleExtBadArg] [] 5 5 sampleDB).1 = sampleDB := by decide

/-- C8 (amended): a decode anomaly confined to the call object or its
descriptor keys (call absent, or `call_index`/`call_function`/
`call_module`/`call_args` keys absent) is absorbed by detail extraction
— the affected descriptor fields and tag come back absent and no
exception is raised, so ingestion of the extrinsic proceeds to the
persistence step — provided every argument dict present carries its
`name` (and, for "netuid", `value`) key. -/
theorem decode_missing_call_absorbed (v : ExtrinsicValue)
    (hwf : ∀ a ∈ ((v.call.getD emptyCallDict).call_args.getD []),
      a.name.isSome ∧ (a.name = some "netuid" → a.value.isSome)) :
    extract_extrinsic_details v =
      .ok (((v.call.getD emptyCallDict).call_index, (v.call.getD emptyCallDict).call_function,
        (v.call.getD emptyCallDict).call_module),
        specNetuid ((v.call.getD emptyCallDict).call_args.getD [])) ∧
    (v.call = none → extract_extrinsic_details v = .ok ((none, none, none), none)) := by
  have h := extract_details_ok v hwf
  refine ⟨h, fun hnone => ?_⟩
  rw [h, hnone]
  simp [emptyCallDict, specNetuid]

/-- Witness for C8's amended theorem: an extrinsic value with no `call`
key decodes to an all-absent descriptor and tag without raising. -/
theorem decode_missing_call_absorbed_witness :
    (extract_extrinsic_details sampleValNoCall =
      .ok (((sampleValNoCall.call.getD emptyCallDict).call_index,
        (sampleValNoCall.call.getD emptyCallDict).call_function,
        (sampleValNoCall.call.getD emptyCallDict).call_module),
        specNetuid ((sampleValNoCall.call.getD emptyCallDict).call_args.getD [])) ∧
    (sampleValNoCall.call = none →
      extract_extrinsic_details sampleValNoCall = .ok ((none, none, none), none))) :=
  decode_missing_call_absorbed sampleValNoCall (by decide)

/-- C5: the script deliberately passes `call_index_instance = None` for
an absent/empty identifier and goes on to persist the Extrinsic, but
`myapp/models.py` declares `Extrinsic.call_index` as a non-nullable
foreign key, so the INSERT is rejected: no Call row is created (as
claimed), yet the Extrinsic row is NOT persisted either — the run aborts
with an integrity error and the database is unchanged. -/
theorem empty_identifier_insert_rejected :
    (process_extrinsics [sampleExtNoCall] [] 5 5 sampleDB).1 = sampleDB ∧
    (process_extrinsics [sampleExtNoCall] [] 5 5 sampleDB).2 =
      .error (.dbErr (.notNull "Extrinsic" "call_index")) := by decide

/-- C10: an extrinsic whose decoded value attribute is absent or falsy
creates no Extrinsic row at its position at all: the loop step leaves
the database untouched and continues with the next extrinsic at the
next position index. -/
theorem falsy_value_skipped (e : PyExtrinsic) (rest : List PyExtrinsic)
    (events : List PyEvent) (bi B i : Nat) (db : DB) (hv : e.value = none) :
    processAux (e :: rest) events bi B i db = processAux rest events bi B (i + 1) db := by
  rw [processAux, hv]

/-- Witness for C10: skipping the valueless extrinsic at position 0 of a
concrete run. -/
theorem falsy_value_skipped_witness :
    processAux [sampleExtNone, sampleExt1] [sampleEvSuccess] 5 5 0 sampleDB =
      processAux [sampleExt1] [sampleEvSuccess] 5 5 1 sampleDB :=
  falsy_value_skipped sampleExtNone [sampleExt1] [sampleEvSuccess] 5 5 0 sampleDB (by decide)

/-- C4 counterexample: block 5 with one fetched extrinsic (N = 1) whose
decoded value is absent completes without error but persists no row, so
the persisted position identifiers are not the claimed {\"5-0000\"}. -/
theorem position_identifiers_counterexample :
    (process_extrinsics [sampleExtNone] [] 5 5 sampleDB).2 = .ok () ∧
    ((process_extrinsics [sampleExtNone] [] 5 5 sampleDB).1.extrinsics.map
      ExtrinsicRow.idx) = [] ∧
    ¬ ((process_extrinsics [sampleExtNone] [] 5 5 sampleDB).1.extrinsics.map
      ExtrinsicRow.idx = [fmtIdx 5 0]) := by decide

/-- On a run that skips nothing (every extrinsic has a decoded value)
and raises nothing, the rows appended by the loop carry exactly the
position identifiers `fmtIdx B i, fmtIdx B (i+1), …`, in order. -/
theorem processAux_ok_idx (xs : List PyExtrinsic) (events : List PyEvent)
    (bi B : Nat) : ∀ (i : Nat) (db db' : DB),
    (∀ e ∈ xs, e.value.isSome) →
    processAux xs events bi B i db = (db', .ok ()) →
    db'.extrinsics.map ExtrinsicRow.idx =
      db.extrinsics.map ExtrinsicRow.idx ++
        (List.range xs.length).map (fun j => fmtIdx B (i + j)) := by
  induction xs with
  | nil =>
    intro i db db' _ h
    rw [processAux] at h
    obtain ⟨h1, -⟩ := Prod.mk.injEq .. |>.mp h
    simp [← h1]
  | cons e rest ih =>
    intro i db db' hvals h
    obtain ⟨v, hv⟩ := Option.isSome_iff_exists.mp (hvals e (List.mem_cons_self e rest))
    rw [processAux] at h
    simp only [hv] at h
    cases hee : extract_extrinsic_events events i with
    | error err =>
      simp only [hee] at h
      exact absurd (congrArg Prod.snd h) (by simp)
    | ok p =>
      obtain ⟨l, s⟩ := p
      simp only [hee] at h
      cases hdet : extract_extrinsic_details v with
      | error err =>
        simp only [hdet] at h
        exact absurd (congrArg Prod.snd h) (by simp)
      | ok q =>
        obtain ⟨t, nu⟩ := q
        simp only [hdet] at h
        cases hrc : resolveCall db t with
        | error err =>
          simp only [hrc] at h
          exact absurd (congrArg Prod.snd h) (by simp)
        | ok p2 =>
          obtain ⟨db1, ref⟩ := p2
          simp only [hrc] at h
          cases hec : Extrinsic_create db1 v.extrinsic_hash nu v.address bi (fmtIdx B i)
              v.signature v.tip v.nonce v.era ref (v.call.getD emptyCallDict).call_args
              (if s then "success" else "failed") l with
          | error err =>
            simp only [hec] at h
            exact absurd (congrArg Prod.snd h) (by simp)
          | ok db2 =>
            simp only [hec] at h
            obtain ⟨h0, ci0, -, -, hdb2⟩ :=
              Extrinsic_create_ok db1 _ _ _ _ _ _ _ _ _ _ _ _ _ _ hec
            have hrec := ih (i + 1) db2 db'
              (fun e' he' => hvals e' (List.mem_cons_of_mem _ he')) h
            rw [hrec, hdb2]
            simp only [List.map_append]
            rw [(resolveCall_ok_state db t db1 ref hrc).1]
            have hrange : (List.range (rest.length + 1)).map (fun j => fmtIdx B (i + j)) =
                fmtIdx B i :: (List.range rest.length).map (fun j => fmtIdx B (i + 1 + j)) := by
              rw [List.range_succ_eq_map]
              simp only [List.map_cons, List.map_map, Nat.add_zero]
              refine congrArg _ (List.map_congr_left fun j _ => ?_)
              exact congrArg (fmtIdx B) (by omega)
            simp [hrange]

/-- C4 (amended): for every block whose fetched extrinsics all have a
present (truthy) decoded value and whose processing completes without
error, the persisted Extrinsic rows' position identifiers are exactly
`{B}-0000 … {B}-{N-1 zero-padded to 4 digits}`, in order — unique and
contiguous with no gaps. (The claim as stated fails when a decoded value
is absent: that extrinsic is skipped and its position identifier never
persisted.) -/
theorem position_identifiers_contiguous (xs : List PyExtrinsic) (events : List PyEvent)
    (bi B : Nat) (db db' : DB) (hvals : ∀ e ∈ xs, e.value.isSome)
    (h : process_extrinsics xs events bi B db = (db', .ok ())) :
    db'.extrinsics.map ExtrinsicRow.idx =
      db.extrinsics.map ExtrinsicRow.idx ++
        (List.range xs.length).map (fun j => fmtIdx B j) := by
  have := processAux_ok_idx xs events bi B 0 db db' hvals h
  simpa using this

/-- Witness for C4's amended theorem: two extrinsics in block 5 yield
exactly the identifiers 5-0000, 5-0001. -/
theorem position_identifiers_contiguous_witness :
    (process_extrinsics [sampleExt1, sampleExt2] [] 5 5 sampleDB).1.extrinsics.map
        ExtrinsicRow.idx =
      sampleDB.extrinsics.map ExtrinsicRow.idx ++
        (List.range 2).map (fun j => fmtIdx 5 j) :=
  position_identifiers_contiguous [sampleExt1, sampleExt2] [] 5 5 sampleDB _
    (by decide) (by decide)

/-- In a Call table with pairwise-distinct identifiers, an identifier
that occurs at all occurs exactly once. -/
theorem count_eq_one_of_nodup_mem (l : List CallRow) (c : String)
    (hnd : (l.map CallRow.call_index).Nodup)
    (hmem : (l.any fun r => r.call_index = c) = true) :
    l.countP (fun r => r.call_index == c) = 1 := by
  induction l with
  | nil => simp at hmem
  | cons r rest ih =>
    simp only [List.map_cons, List.nodup_cons] at hnd
    obtain ⟨hnotin, hnd'⟩ := hnd
    rw [List.countP_cons]
    by_cases hrc : r.call_index = c
    · have hrest0 : rest.countP (fun r' => r'.call_index == c) = 0 := by
        rw [List.countP_eq_zero]
        intro r' hr'
        simp only [beq_iff_eq]
        intro hc
        apply hnotin
        rw [hrc, ← hc]
        exact List.mem_map_of_mem CallRow.call_index hr'
      simp [hrest0, hrc]
    · have hmem' : (rest.any fun r' => r'.call_index = c) = true := by
        rcases List.any_eq_true.mp hmem with ⟨x, hx, hpx⟩
        rcases List.mem_cons.mp hx with rfl | hxr
        · exact absurd (by simpa using hpx) hrc
        · exact List.any_eq_true.mpr ⟨x, hxr, hpx⟩
      simp [hrc, ih hnd' hmem']

/-- The Call-registry fragment on a truthy identifier `c`, starting from
a Call table with pairwise-distinct identifiers: it returns the
reference `c`, touches only the Call table, preserves distinctness, and
leaves exactly one row with identifier `c` — whether or not one already
existed. -/
theorem resolveCall_spec (db : DB) (t : Option String × Option String × Option String)
    (c : String) (hc : t.1 = some c) (hne : c ≠ "")
    (hnd : (db.calls.map CallRow.call_index).Nodup) :
    ∃ db1, resolveCall db t = .ok (db1, some c) ∧
      db1.extrinsics = db.extrinsics ∧ db1.blocks = db.blocks ∧
      (db1.calls.map CallRow.call_index).Nodup ∧
      db1.calls.countP (fun r => r.call_index == c) = 1 := by
  by_cases hmem : (db.calls.any fun r => r.call_index = c) = true
  · obtain ⟨row, hf⟩ : ∃ row, db.calls.find? (fun r => r.call_index = c) = some row := by
      cases hf : db.calls.find? (fun r => r.call_index = c) with
      | some row => exact ⟨row, rfl⟩
      | none =>
        rw [List.find?_eq_none] at hf
        obtain ⟨x, hx, hpx⟩ := List.any_eq_true.mp hmem
        exact absurd hpx (hf x hx)
    have hrowc : row.call_index = c := by simpa using List.find?_some hf
    refine ⟨db, ?_, rfl, rfl, hnd, count_eq_one_of_nodup_mem _ _ hnd hmem⟩
    rw [resolveCall]
    simp only [hc]
    rw [if_neg hne, if_neg (not_not_intro hmem)]
    simp only [Call_get, hf, hrowc]
  · have hcnot : c ∉ db.calls.map CallRow.call_index := by
      intro hin
      obtain ⟨r, hr, hrc⟩ := List.mem_map.mp hin
      exact hmem (List.any_eq_true.mpr ⟨r, hr, by simpa using hrc⟩)
    have hfindold : db.calls.find? (fun r => r.call_index = c) = none := by
      rw [List.find?_eq_none]
      intro x hx hpx
      exact hmem (List.any_eq_true.mpr ⟨x, hx, hpx⟩)
    have hcount0 : db.calls.countP (fun r => r.call_index == c) = 0 := by
      rw [List.countP_eq_zero]
      intro r hr
      simp only [beq_iff_eq]
      intro hc'
      exact hmem (List.any_eq_true.mpr ⟨r, hr, by simpa using hc'⟩)
    refine ⟨{ db with calls := db.calls ++ [⟨c, t.2.1, t.2.2⟩] }, ?_, rfl, rfl, ?_, ?_⟩
    · rw [resolveCall]
      simp only [hc]
      rw [if_neg hne, if_pos hmem, Call_create]
      have hguard : ¬ (db.calls.any fun r =>
          r.call_index = (⟨c, t.2.1, t.2.2⟩ : CallRow).call_index) = true := hmem
      rw [if_neg hguard]
      have hfind : (db.calls ++ [(⟨c, t.2.1, t.2.2⟩ : CallRow)]).find?
          (fun r => r.call_index = c) = some ⟨c, t.2.1, t.2.2⟩ := by
        rw [List.find?_append, hfindold]
        simp [List.find?]
      simp only [Call_get, hfind]
    · simp only [List.map_append, List.map_cons, List.map_nil]
      rw [List.nodup_append]
      exact ⟨hnd, List.nodup_singleton c, by simpa using hcnot⟩
    · simp only [List.countP_append, hcount0]
      simp [List.countP_cons]

/-- Processing a single extrinsic whose descriptor carries the non-empty
identifier `c`, against a Call table with pairwise-distinct identifiers:
on success, exactly one row is appended to the Extrinsic table, it
references `c`, and the final Call table holds exactly one row with
identifier `c`, its identifiers still pairwise distinct. -/
theorem processOne_call (e : PyExtrinsic) (v : ExtrinsicValue) (cd : CallDict) (c : String)
    (events : List PyEvent) (bi B : Nat) (db db' : DB)
    (hv : e.value = some v) (hcd : v.call = some cd) (hci : cd.call_index = some c)
    (hne : c ≠ "") (hnd : (db.calls.map CallRow.call_index).Nodup)
    (h : process_extrinsics [e] events bi B db = (db', .ok ())) :
    ∃ r, db'.extrinsics = db.extrinsics ++ [r] ∧ r.call_index = some c ∧
      db'.calls.countP (fun row => row.call_index == c) = 1 ∧
      (db'.calls.map CallRow.call_index).Nodup := by
  rw [process_extrinsics, processAux] at h
  simp only [hv] at h
  cases hee : extract_extrinsic_events events 0 with
  | error err =>
    simp only [hee] at h
    exact absurd (congrArg Prod.snd h) (by simp)
  | ok p =>
    obtain ⟨l, s⟩ := p
    simp only [hee] at h
    cases hfn : findNetuid (cd.call_args.getD []) with
    | error err =>
      rw [show extract_extrinsic_details v = .error err by
        simp only [extract_extrinsic_details, hcd, Option.getD_some]; rw [hfn]] at h
      simp only at h
      exact absurd (congrArg Prod.snd h) (by simp)
    | ok nu =>
      rw [show extract_extrinsic_details v =
          .ok ((cd.call_index, cd.call_function, cd.call_module), nu) by
        simp only [extract_extrinsic_details, hcd, Option.getD_some]; rw [hfn]] at h
      simp only at h
      obtain ⟨db1, hrc, hex1, hbl1, hnd1, hcount1⟩ :=
        resolveCall_spec db (cd.call_index, cd.call_function, cd.call_module) c hci hne hnd
      simp only [hrc] at h
      cases hec : Extrinsic_create db1 v.extrinsic_hash nu v.address bi (fmtIdx B 0)
          v.signature v.tip v.nonce v.era (some c) (v.call.getD emptyCallDict).call_args
          (if s then "success" else "failed") l with
      | error err =>
        simp only [hec] at h
        exact absurd (congrArg Prod.snd h) (by simp)
      | ok db2 =>
        simp only [hec] at h
        rw [processAux] at h
        obtain ⟨hdb', -⟩ := Prod.mk.injEq .. |>.mp h
        obtain ⟨h0, ci0, -, hci0, hdb2⟩ :=
          Extrinsic_create_ok db1 _ _ _ _ _ _ _ _ _ _ _ _ _ _ hec
        have hc0 : ci0 = c := by injection hci0.symm
        refine ⟨⟨h0, nu, v.address, bi, fmtIdx B 0, v.signature, v.tip, v.nonce, v.era,
          some ci0, (v.call.getD emptyCallDict).call_args,
          if s then "success" else "failed", l⟩, ?_, ?_, ?_, ?_⟩
        · rw [← hdb', hdb2]
          simp only [hex1]
        · simp [hc0]
        · rw [← hdb', hdb2]
          simpa using hcount1
        · rw [← hdb', hdb2]
          simpa using hnd1

/-- C3: after ingesting any two extrinsics (same or different blocks,
modelled as two successive single-extrinsic runs with arbitrary block
instances) whose call descriptors share the same non-empty identifier
`c`, exactly one Call row with identifier `c` exists, and both persisted
Extrinsic rows reference it. -/
theorem call_dedup_shared_identifier
    (e1 e2 : PyExtrinsic) (v1 v2 : ExtrinsicValue) (cd1 cd2 : CallDict) (c : String)
    (evs1 evs2 : List PyEvent) (bi1 bi2 B1 B2 : Nat) (db0 db1 db2 : DB)
    (hv1 : e1.value = some v1) (hcd1 : v1.call = some cd1) (hci1 : cd1.call_index = some c)
    (hv2 : e2.value = some v2) (hcd2 : v2.call = some cd2) (hci2 : cd2.call_index = some c)
    (hne : c ≠ "") (hnd : (db0.calls.map CallRow.call_index).Nodup)
    (h1 : process_extrinsics [e1] evs1 bi1 B1 db0 = (db1, .ok ()))
    (h2 : process_extrinsics [e2] evs2 bi2 B2 db1 = (db2, .ok ())) :
    db2.calls.countP (fun row => row.call_index == c) = 1 ∧
    ∃ r1 r2, db1.extrinsics = db0.extrinsics ++ [r1] ∧
      db2.extrinsics = db1.extrinsics ++ [r2] ∧
      r1.call_index = some c ∧ r2.call_index = some c := by
  obtain ⟨r1, he1, hr1, -, hnd1⟩ :=
    processOne_call e1 v1 cd1 c evs1 bi1 B1 db0 db1 hv1 hcd1 hci1 hne hnd h1
  obtain ⟨r2, he2, hr2, hcount2, -⟩ :=
    processOne_call e2 v2 cd2 c evs2 bi2 B2 db1 db2 hv2 hcd2 hci2 hne hnd1 h2
  exact ⟨hcount2, r1, r2, he1, he2, hr1, hr2⟩

/-- Witness for C3: ingest `sampleExt1` then `sampleExt2` (shared
identifier "0x0701") into blocks 5 and 5: one Call row, both rows
reference it. -/
theorem call_dedup_shared_identifier_witness :
    ((process_extrinsics [sampleExt2] []
        5 5 (process_extrinsics [sampleExt1] [] 5 5 sampleDB).1).1.calls.countP
      (fun row => row.call_index == "0x0701")) = 1 ∧
    ∃ r1 r2,
      (process_extrinsics [sampleExt1] [] 5 5 sampleDB).1.extrinsics =
        sampleDB.extrinsics ++ [r1] ∧
      (process_extrinsics [sampleExt2] []
          5 5 (process_extrinsics [sampleExt1] [] 5 5 sampleDB).1).1.extrinsics =
        (process_extrinsics [sampleExt1] [] 5 5 sampleDB).1.extrinsics ++ [r2] ∧
      r1.call_index = some "0x0701" ∧ r2.call_index = some "0x0701" :=
  call_dedup_shared_identifier sampleExt1 sampleExt2 sampleVal1 sampleVal2
    sampleCD1 sampleCD2 "0x0701" [] [] 5 5 5 5 sampleDB
    (process_extrinsics [sampleExt1] [] 5 5 sampleDB).1
    (process_extrinsics [sampleExt2] [] 5 5
      (process_extrinsics [sampleExt1] [] 5 5 sampleDB).1).1
    (by decide) (by decide) (by decide) (by decide) (by decide) (by decide)
    (by decide) (by decide) (by decide) (by decide)

/-- C9: re-ingesting an already-processed block number (its timestamp
scan raising nothing) fails with a uniqueness conflict on the Block's
identifying key, and leaves the database exactly as it was: no Block or
Extrinsic row is overwritten or duplicated. -/
theorem reingest_block_conflict (db : DB) (B : Nat) (blk : BlockData) (bh : String)
    (events : List PyEvent) (b : BlockRow) (hb : b ∈ db.blocks) (hid : b.block_id = B)
    (hts : TsWellShaped blk.extrinsics) :
    process_block B blk events bh db =
      (db, .error (.dbErr (.uniqueConflict "Block" "block_id"))) := by
  rw [process_block, extract_block_timestamp_refines blk.extrinsics hts]
  have hany : (db.blocks.any fun r => r.block_id = B) = true :=
    List.any_eq_true.mpr ⟨b, hb, by simp [hid]⟩
  simp [create_block_record, Block_create, hany]

/-- Witness for C9: re-ingesting block 5 into `sampleDB`, which already
holds block 5, conflicts and leaves the database untouched. -/
theorem reingest_block_conflict_witness :
    process_block 5 ⟨⟨"0xp2", "0xs2", "0xe2"⟩, [sampleTsExt]⟩ [] "0xnewhash" sampleDB =
      (sampleDB, .error (.dbErr (.uniqueConflict "Block" "block_id"))) :=
  reingest_block_conflict sampleDB 5 ⟨⟨"0xp2", "0xs2", "0xe2"⟩, [sampleTsExt]⟩ "0xnewhash"
    [] ⟨5, "0xblockhash5", "0xparent", "0xstate", "0xextr", none⟩
    (by decide) (by decide) (by decide)

example :
    extract_block_timestamp
      [⟨some ⟨some ⟨some "0x01", some "set", some "Timestamp",
        some [⟨some "now", some 1700000000000⟩]⟩, some "h", none, none, none, none, none⟩⟩] =
      .ok (some 1700000000000) := by decide
